import Mathlib

/-!
Verification of the invocation-resolution and dispatch protocol of the
whitebox-tools command-line front end (`src/main.rs`, function `run`).

The embedding models Rust strings as lists of characters (`Str`).  The
string primitives used by the source (`str::replace`, `str::starts_with`,
`str::ends_with`, `str::contains`, `str::trim`, `str::to_lowercase`,
byte-slicing off a leading `=`) are defined below by structural recursion,
restricted to the ASCII range where the source only ever compares ASCII
flag text.  The platform path separator is fixed to the Unix build value
`/` (`std::path::MAIN_SEPARATOR`).

Side effects (printing the help/license/version banners, constructing the
`ToolManager` backend, and the backend operation finally dispatched) are
modelled as an ordered event trace produced by `run`.
-/

namespace WB

abbrev Str := List Char

/-- Does `s` start with the pattern `p`?  Models Rust `str::starts_with`. -/
def startsWithL : Str → Str → Bool
  | _, [] => true
  | [], _ :: _ => false
  | c :: cs, p :: ps => c == p && startsWithL cs ps

/-- Does `s` end with the pattern `p`?  Models Rust `str::ends_with`. -/
def endsWithL (s p : Str) : Bool :=
  startsWithL s.reverse p.reverse

/-- Does `s` contain `pat` as a contiguous substring?  Models Rust
`str::contains` on string patterns. -/
def containsL : Str → Str → Bool
  | [], pat => pat.isEmpty
  | c :: cs, pat => startsWithL (c :: cs) pat || containsL cs pat

/-- One fuel-indexed pass of leftmost, non-overlapping replace-all.  The
fuel is the length of the subject string, so it never runs out before the
string is consumed (each step consumes at least one character). -/
def replaceFuel : Nat → Str → Str → Str → Str
  | 0, s, _, _ => s
  | _ + 1, [], _, _ => []
  | n + 1, c :: cs, pat, rep =>
    if startsWithL (c :: cs) pat then
      rep ++ replaceFuel n (List.drop (pat.length - 1) cs) pat rep
    else
      c :: replaceFuel n cs pat rep

/-- Replace every (leftmost, non-overlapping) occurrence of `pat` in `s`
by `rep`.  Models Rust `str::replace` for the non-empty patterns the
source uses; an empty pattern leaves the string unchanged. -/
def replaceAll (s pat rep : Str) : Str :=
  if pat.isEmpty then s else replaceFuel s.length s pat rep

/-- ASCII lowercasing of one character; agrees with Rust
`char::to_lowercase` on the ASCII range, which is all the source compares. -/
def lowCh (c : Char) : Char :=
  if 65 ≤ c.toNat ∧ c.toNat ≤ 90 then Char.ofNat (c.toNat + 32) else c

/-- Models Rust `str::to_lowercase` (ASCII range). -/
def toLowercase (s : Str) : Str := s.map lowCh

/-- ASCII whitespace, for `str::trim`. -/
def isWhite (c : Char) : Bool :=
  c == ' ' || c == '\t' || c == '\n' || c == '\r'

/-- Models Rust `str::trim` (ASCII whitespace range). -/
def trimL (s : Str) : Str :=
  ((s.dropWhile isWhite).reverse.dropWhile isWhite).reverse

/-- The double-quote character, as a pattern. -/
def dqF : Str := "\"".data

/-- The single-quote character (codepoint 39), as a pattern. -/
def sqF : Str := [Char.ofNat 39]

/-- The pair of quote-deletion replace calls from the source. -/
def stripQuotes (s : Str) : Str :=
  replaceAll (replaceAll s dqF []) sqF []

/-- `if v.starts_with("=") { v = v[1..v.len()].to_string(); }` from the
source. -/
def stripEq (s : Str) : Str :=
  if startsWithL s ("=".data) then s.drop 1 else s

/-- The value-extraction shape shared by the flag branches of the source:
delete each alias in order (replace-all), strip quote characters, then
drop one leading `=`. -/
def extractValue (aliases : List Str) (t : Str) : Str :=
  stripEq (stripQuotes (aliases.foldl (fun acc a => replaceAll acc a []) t))

/-! Flag text constants, named after the branch of `run` they belong to. -/

def hF : Str := "-h".data
def helpF : Str := "-help".data
def cdF : Str := "-cd".data
def wdF : Str := "-wd".data
def dcdF : Str := "--cd".data
def dwdF : Str := "--wd".data
def runA : Str := "--run".data
def runB : Str := "-run".data
def runC : Str := "-r".data
def thA : Str := "--toolhelp".data
def thB : Str := "-toolhelp".data
def tpA : Str := "--toolparameters".data
def tpB : Str := "-toolparameters".data
def tbA : Str := "--toolbox".data
def tbB : Str := "-toolbox".data
def ltA : Str := "-listtools".data
def ltB : Str := "--listtools".data
def ltC : Str := "-list_tools".data
def ltD : Str := "--list_tools".data
def vcA : Str := "--viewcode".data
def vcB : Str := "-viewcode".data
def licA : Str := "-license".data
def licB : Str := "-licence".data
def licC : Str := "--license".data
def licD : Str := "--licence".data
def lF : Str := "-l".data
def verA : Str := "-version".data
def verB : Str := "--version".data
def vF : Str := "-v".data
def dashF : Str := "-".data
def ddashF : Str := "--".data
def sentinel : Str := "-17976931348623157".data
def wbt : Str := "whitebox_tools".data
def sepF : Str := "/".data

/-- Alias-deletion list of the `-r`/`--run` branch. -/
def runAliases : List Str := [runA, runB, runC]
/-- Alias-deletion list of the `--toolhelp` branch. -/
def toolhelpAliases : List Str := [thA, thB]
/-- Alias-deletion list of the `--toolparameters` branch. -/
def toolparametersAliases : List Str := [tpA, tpB]
/-- Alias-deletion list of the `--toolbox` branch.  Faithful to the
source, which deletes `--toolbox` and then `-toolhelp` (not `-toolbox`)
in this branch. -/
def toolboxAliases : List Str := [tbA, thB]
/-- Alias-deletion list of the `--viewcode` branch. -/
def viewcodeAliases : List Str := [vcA, vcB]
/-- Alias-deletion list of the `--cd`/`--wd` branch. -/
def cdAliases : List Str := [dcdF, dwdF, cdF, wdF]

/-- `let flag_val = arg.to_lowercase().replace("--", "-");` -/
def flagValOf (arg : Str) : Str :=
  replaceAll (toLowercase arg) ddashF dashF

/-- The mutable accumulator of `run`, one field per local variable of the
source. -/
structure RState where
  workingDir : Str
  toolName : Str
  runTool : Bool
  toolHelp : Bool
  toolParameters : Bool
  toolbox : Bool
  listTools : Bool
  keywords : List Str
  viewCode : Bool
  toolArgsVec : List Str
  verbose : Bool
  findingWorkingDir : Bool
deriving DecidableEq

/-- The initial values of the locals of `run`. -/
def initState : RState :=
  { workingDir := [], toolName := [], runTool := false, toolHelp := false,
    toolParameters := false, toolbox := false, listTools := false,
    keywords := [], viewCode := false, toolArgsVec := [], verbose := false,
    findingWorkingDir := false }

/-- Result of processing one token: either the updated state, or one of
the three early returns of the loop. -/
inductive StepResult where
  | next (s : RState)
  | showHelp
  | showLicense
  | showVersion
deriving DecidableEq

/-- The `--cd`/`--wd` branch body. -/
def cdBranch (s : RState) (arg : Str) : RState :=
  let v := extractValue cdAliases arg
  let fwd := if (trimL v).isEmpty then true else s.findingWorkingDir
  let v2 := if endsWithL v sepF then v else v ++ sepF
  { s with workingDir := v2, findingWorkingDir := fwd }

/-- One iteration of the `for arg in args` loop of `run`, translated
branch for branch. -/
def processArg (s : RState) (arg : Str) : StepResult :=
  if flagValOf arg = hF ∨ flagValOf arg = helpF then
    StepResult.showHelp
  else if startsWithL (flagValOf arg) cdF = true ∨ startsWithL (flagValOf arg) wdF = true then
    StepResult.next (cdBranch s arg)
  else if startsWithL arg runB = true ∨ startsWithL arg runA = true ∨ startsWithL arg runC = true then
    StepResult.next { s with toolName := extractValue runAliases arg, runTool := true }
  else if startsWithL arg thB = true ∨ startsWithL arg thA = true then
    StepResult.next { s with toolName := extractValue toolhelpAliases arg, toolHelp := true }
  else if startsWithL arg tpB = true ∨ startsWithL arg tpA = true then
    StepResult.next { s with toolName := extractValue toolparametersAliases arg, toolParameters := true }
  else if startsWithL arg tbB = true ∨ startsWithL arg tbA = true then
    StepResult.next { s with toolName := extractValue toolboxAliases arg, toolbox := true }
  else if startsWithL arg ltA = true ∨ startsWithL arg ltB = true ∨ startsWithL arg ltC = true ∨ startsWithL arg ltD = true then
    StepResult.next { s with listTools := true }
  else if startsWithL arg vcB = true ∨ startsWithL arg vcA = true then
    StepResult.next { s with toolName := extractValue viewcodeAliases arg, viewCode := true }
  else if startsWithL arg licA = true ∨ startsWithL arg licB = true ∨ startsWithL arg licC = true ∨ startsWithL arg licD = true ∨ startsWithL arg lF = true then
    StepResult.showLicense
  else if startsWithL arg verA = true ∨ startsWithL arg verB = true then
    StepResult.showVersion
  else if trimL arg = vF then
    StepResult.next { s with verbose := true }
  else if startsWithL arg dashF = true then
    if containsL arg sentinel = true then
      StepResult.next s
    else
      StepResult.next { s with toolArgsVec := s.toolArgsVec ++ [trimL arg] }
  else if containsL arg wbt = true then
    StepResult.next s
  else if s.findingWorkingDir then
    StepResult.next { s with keywords := s.keywords ++ [stripQuotes (trimL arg)],
                             workingDir := trimL arg, findingWorkingDir := false }
  else if 0 < s.toolArgsVec.length then
    StepResult.next { s with keywords := s.keywords ++ [stripQuotes (trimL arg)],
                             toolArgsVec := s.toolArgsVec ++ [trimL arg] }
  else
    StepResult.next { s with keywords := s.keywords ++ [stripQuotes (trimL arg)] }

/-- Outcome of the whole token scan: one of the three early returns, or
the final accumulator state. -/
inductive ScanOutcome where
  | help
  | license
  | version
  | done (s : RState)
deriving DecidableEq

/-- Folds `processArg` over the argument list, stopping at an early
return, exactly as the `for` loop does. -/
def scan (s : RState) : List Str → ScanOutcome
  | [] => ScanOutcome.done s
  | a :: rest =>
    match processArg s a with
    | StepResult.next s2 => scan s2 rest
    | StepResult.showHelp => ScanOutcome.help
    | StepResult.showLicense => ScanOutcome.license
    | StepResult.showVersion => ScanOutcome.version

/-- Observable side effects of `run`: banner printing, backend
construction, and the backend operations. -/
inductive Event where
  | printVersion
  | printHelp
  | printLicense
  | construct (workingDir : Str) (verbose : Bool)
  | callRunTool (name : Str) (args : List Str)
  | callToolHelp (name : Str)
  | callToolParameters (name : Str)
  | callToolbox (name : Str)
  | callListTools
  | callListToolsKeywords (keywords : List Str)
  | callGetToolSourceCode (name : Str)
deriving DecidableEq

/-- The tool-name fallback repeated in each dispatch branch of the
source: an empty `tool_name` falls back to the first keyword. -/
def effName (s : RState) : Str :=
  if s.toolName.isEmpty = true ∧ 0 < s.keywords.length then s.keywords.headD []
  else s.toolName

/-- The final `working_dir` normalization before the backend is
constructed. -/
def finalWd (s : RState) : Str :=
  if endsWithL s.workingDir sepF then s.workingDir else s.workingDir ++ sepF

/-- The dispatch if-chain at the end of `run` (after the backend has been
constructed), as the list of backend operation calls it performs. -/
def dispatchOps (s : RState) : List Event :=
  if s.runTool then [Event.callRunTool (effName s) s.toolArgsVec]
  else if s.toolHelp then [Event.callToolHelp (effName s)]
  else if s.toolParameters then [Event.callToolParameters (effName s)]
  else if s.toolbox then [Event.callToolbox (effName s)]
  else if s.listTools then
    if s.keywords.length = 0 then [Event.callListTools]
    else [Event.callListToolsKeywords s.keywords]
  else if s.viewCode then [Event.callGetToolSourceCode (effName s)]
  else []

/-- The whole of `run`, as the ordered trace of observable events.  The
argument list is the full `env::args()` vector, program name included,
exactly as the source iterates over it. -/
def run (args : List Str) : List Event :=
  if args.length ≤ 1 then
    [Event.printVersion, Event.printHelp, Event.construct [] false, Event.callListTools]
  else
    match scan initState args with
    | ScanOutcome.help => [Event.printHelp]
    | ScanOutcome.license => [Event.printLicense]
    | ScanOutcome.version => [Event.printVersion]
    | ScanOutcome.done s => Event.construct (finalWd s) s.verbose :: dispatchOps s

/-- The Tool Backend operation calls within a trace (banner printing and
backend construction are not operation calls). -/
def backendOps (es : List Event) : List Event :=
  es.filter fun e =>
    match e with
    | Event.callRunTool _ _ => true
    | Event.callToolHelp _ => true
    | Event.callToolParameters _ => true
    | Event.callToolbox _ => true
    | Event.callListTools => true
    | Event.callListToolsKeywords _ => true
    | Event.callGetToolSourceCode _ => true
    | _ => false

/-! ### Sanity checks of the string primitives against Rust semantics -/

example : replaceAll ("aaa".data) ("aa".data) ("b".data) = "ba".data := by decide
example : extractValue runAliases ("-r=Slope".data) = "Slope".data := by decide
example : flagValOf ("--HeLp".data) = "-help".data := by decide

/-! ### Unfolding lemmas for the flag-text constants -/

@[simp] lemma hF_eq : hF = ['-', 'h'] := rfl
@[simp] lemma helpF_eq : helpF = ['-', 'h', 'e', 'l', 'p'] := rfl
@[simp] lemma cdF_eq : cdF = ['-', 'c', 'd'] := rfl
@[simp] lemma wdF_eq : wdF = ['-', 'w', 'd'] := rfl
@[simp] lemma runA_eq : runA = ['-', '-', 'r', 'u', 'n'] := rfl
@[simp] lemma runB_eq : runB = ['-', 'r', 'u', 'n'] := rfl
@[simp] lemma runC_eq : runC = ['-', 'r'] := rfl
@[simp] lemma thA_eq : thA = ['-', '-', 't', 'o', 'o', 'l', 'h', 'e', 'l', 'p'] := rfl
@[simp] lemma thB_eq : thB = ['-', 't', 'o', 'o', 'l', 'h', 'e', 'l', 'p'] := rfl
@[simp] lemma tpA_eq : tpA = ['-', '-', 't', 'o', 'o', 'l', 'p', 'a', 'r', 'a', 'm', 'e', 't', 'e', 'r', 's'] := rfl
@[simp] lemma tpB_eq : tpB = ['-', 't', 'o', 'o', 'l', 'p', 'a', 'r', 'a', 'm', 'e', 't', 'e', 'r', 's'] := rfl
@[simp] lemma tbA_eq : tbA = ['-', '-', 't', 'o', 'o', 'l', 'b', 'o', 'x'] := rfl
@[simp] lemma tbB_eq : tbB = ['-', 't', 'o', 'o', 'l', 'b', 'o', 'x'] := rfl
@[simp] lemma ltA_eq : ltA = ['-', 'l', 'i', 's', 't', 't', 'o', 'o', 'l', 's'] := rfl
@[simp] lemma ltB_eq : ltB = ['-', '-', 'l', 'i', 's', 't', 't', 'o', 'o', 'l', 's'] := rfl
@[simp] lemma ltC_eq : ltC = ['-', 'l', 'i', 's', 't', '_', 't', 'o', 'o', 'l', 's'] := rfl
@[simp] lemma ltD_eq : ltD = ['-', '-', 'l', 'i', 's', 't', '_', 't', 'o', 'o', 'l', 's'] := rfl
@[simp] lemma vcA_eq : vcA = ['-', '-', 'v', 'i', 'e', 'w', 'c', 'o', 'd', 'e'] := rfl
@[simp] lemma vcB_eq : vcB = ['-', 'v', 'i', 'e', 'w', 'c', 'o', 'd', 'e'] := rfl
@[simp] lemma licA_eq : licA = ['-', 'l', 'i', 'c', 'e', 'n', 's', 'e'] := rfl
@[simp] lemma licB_eq : licB = ['-', 'l', 'i', 'c', 'e', 'n', 'c', 'e'] := rfl
@[simp] lemma licC_eq : licC = ['-', '-', 'l', 'i', 'c', 'e', 'n', 's', 'e'] := rfl
@[simp] lemma licD_eq : licD = ['-', '-', 'l', 'i', 'c', 'e', 'n', 'c', 'e'] := rfl
@[simp] lemma lF_eq : lF = ['-', 'l'] := rfl
@[simp] lemma verA_eq : verA = ['-', 'v', 'e', 'r', 's', 'i', 'o', 'n'] := rfl
@[simp] lemma verB_eq : verB = ['-', '-', 'v', 'e', 'r', 's', 'i', 'o', 'n'] := rfl
@[simp] lemma vF_eq : vF = ['-', 'v'] := rfl
@[simp] lemma dashF_eq : dashF = ['-'] := rfl
@[simp] lemma ddashF_eq : ddashF = ['-', '-'] := rfl
@[simp] lemma sepF_eq : sepF = ['/'] := rfl

/-! ### Helper lemmas about the string primitives -/

lemma startsWithL_iff {t p : Str} : startsWithL t p = true ↔ ∃ r, t = p ++ r := by
  induction p generalizing t with
  | nil => simp [startsWithL]
  | cons a ps ih =>
    cases t with
    | nil => simp [startsWithL]
    | cons c cs =>
      simp only [startsWithL, Bool.and_eq_true, beq_iff_eq, ih, List.cons_append,
        List.cons.injEq]
      constructor
      · rintro ⟨rfl, r, rfl⟩; exact ⟨r, rfl, rfl⟩
      · rintro ⟨r, rfl, rfl⟩; exact ⟨rfl, r, rfl⟩

lemma startsWith_mono {t p q : Str} (h : startsWithL t (p ++ q) = true) :
    startsWithL t p = true := by
  rcases startsWithL_iff.mp h with ⟨r, rfl⟩
  exact startsWithL_iff.mpr ⟨q ++ r, by simp⟩

lemma startsWith_false_cons {t : Str} {c : Char} (h : startsWithL t [c] = false)
    (p : Str) : startsWithL t (c :: p) = false := by
  cases hb : startsWithL t (c :: p) with
  | false => rfl
  | true =>
    have : startsWithL t [c] = true := startsWith_mono (p := [c]) (q := p) hb
    rw [h] at this
    exact absurd this (by simp)

lemma endsWith_append_sep (w : Str) : endsWithL (w ++ sepF) sepF = true := by
  simp [endsWithL, startsWithL, List.reverse_append]

lemma lowCh_dash : lowCh '-' = '-' := rfl

/-- First shape lemma for `flag_val`: a token `-c…` with `c` a lowercase
non-dash character keeps its two leading characters through lowercasing
and `--`-collapsing. -/
lemma flagVal_cons (c : Char) (hc : lowCh c = c) (hne : (c == '-') = false) (x : Str) :
    ∃ y, flagValOf ('-' :: c :: x) = '-' :: c :: y := by
  refine ⟨replaceFuel (x.map lowCh).length (x.map lowCh) ddashF dashF, ?_⟩
  simp [flagValOf, toLowercase, replaceAll, replaceFuel, startsWithL, hc, hne, lowCh_dash]

/-- Second shape lemma for `flag_val`: a token `--c…` with `c` a lowercase
non-dash character collapses to `-c…`. -/
lemma flagVal_ddcons (c : Char) (hc : lowCh c = c) (hne : (c == '-') = false) (x : Str) :
    ∃ y, flagValOf ('-' :: '-' :: c :: x) = '-' :: c :: y := by
  refine ⟨replaceFuel ((x.map lowCh).length + 1) (x.map lowCh) ddashF dashF, ?_⟩
  simp [flagValOf, toLowercase, replaceAll, replaceFuel, startsWithL, hc, hne, lowCh_dash]

/-! ### Claim theorems -/

/-- C9: with zero argument tokens after the program name, `run` prints the
version text, prints the help text, then constructs the backend and
requests a full tool listing, and performs nothing else. -/
theorem c9_default_listing (p : Str) :
    run [p] =
      [Event.printVersion, Event.printHelp, Event.construct [] false,
        Event.callListTools] := rfl

/-- C9 (witness): the default listing trace at the usual program name. -/
theorem c9_witness :
    run [("whitebox_tools".data)] =
      [Event.printVersion, Event.printHelp, Event.construct [] false,
        Event.callListTools] :=
  c9_default_listing ("whitebox_tools".data)

/-- C2 (code bug evaluation): the `--toolbox` branch deletes the texts
`--toolbox` and `-toolhelp`, so the single-dash token `-toolbox=Slope` is
stored as pending tool name with its alias text intact, while the
double-dash form is stripped as the spec describes. -/
theorem c2_toolbox_alias_bug :
    processArg initState ("-toolbox=Slope".data) =
      StepResult.next { initState with toolName := ("-toolbox=Slope".data), toolbox := true } ∧
    processArg initState ("--toolbox=Slope".data) =
      StepResult.next { initState with toolName := ("Slope".data), toolbox := true } :=
  ⟨by decide, by decide⟩

/-- C1 (counterexample): `whitebox_tools -v` does not short-circuit, the
scan completes, yet no Tool Backend operation is dispatched — the claimed
"exactly one call" fails. -/
theorem c1_counterexample :
    scan initState [("whitebox_tools".data), ("-v".data)] =
      ScanOutcome.done { initState with verbose := true } ∧
    backendOps (run [("whitebox_tools".data), ("-v".data)]) = [] :=
  ⟨by decide, by decide⟩

/-- C1 (amended): in the non-short-circuiting, non-empty case, `run`
constructs the backend once and dispatches at most one backend operation;
exactly one is dispatched when an action flag was set, chosen by the
fixed priority RunTool > ToolHelp > ToolParameters > Toolbox > ListTools
> ViewCode, and none when no action flag was set. -/
theorem c1_amended (args : List Str) (s : RState)
    (hs : scan initState args = ScanOutcome.done s) (hlen : 1 < args.length) :
    run args = Event.construct (finalWd s) s.verbose :: dispatchOps s ∧
    backendOps (run args) = dispatchOps s ∧
    (dispatchOps s).length ≤ 1 ∧
    (s.runTool = true →
      dispatchOps s = [Event.callRunTool (effName s) s.toolArgsVec]) ∧
    (s.runTool = false → s.toolHelp = true →
      dispatchOps s = [Event.callToolHelp (effName s)]) ∧
    (s.runTool = false → s.toolHelp = false → s.toolParameters = true →
      dispatchOps s = [Event.callToolParameters (effName s)]) ∧
    (s.runTool = false → s.toolHelp = false → s.toolParameters = false →
      s.toolbox = true → dispatchOps s = [Event.callToolbox (effName s)]) ∧
    (s.runTool = false → s.toolHelp = false → s.toolParameters = false →
      s.toolbox = false → s.listTools = true → (dispatchOps s).length = 1) ∧
    (s.runTool = false → s.toolHelp = false → s.toolParameters = false →
      s.toolbox = false → s.listTools = false → s.viewCode = true →
      dispatchOps s = [Event.callGetToolSourceCode (effName s)]) ∧
    (s.runTool = false → s.toolHelp = false → s.toolParameters = false →
      s.toolbox = false → s.listTools = false → s.viewCode = false →
      dispatchOps s = []) := by
  have hrun : run args = Event.construct (finalWd s) s.verbose :: dispatchOps s := by
    unfold run
    rw [if_neg (by omega), hs]
  refine ⟨hrun, ?_, ?_, ?_, ?_, ?_, ?_, ?_, ?_, ?_⟩
  · rw [hrun]
    unfold backendOps dispatchOps
    split_ifs <;> simp [List.filter]
  · unfold dispatchOps; split_ifs <;> simp
  · intro h1; simp [dispatchOps, h1]
  · intro h1 h2; simp [dispatchOps, h1, h2]
  · intro h1 h2 h3; simp [dispatchOps, h1, h2, h3]
  · intro h1 h2 h3 h4; simp [dispatchOps, h1, h2, h3, h4]
  · intro h1 h2 h3 h4 h5
    simp only [dispatchOps, h1, h2, h3, h4, h5, if_false, if_true]
    split_ifs <;> simp
  · intro h1 h2 h3 h4 h5 h6; simp [dispatchOps, h1, h2, h3, h4, h5, h6]
  · intro h1 h2 h3 h4 h5 h6; simp [dispatchOps, h1, h2, h3, h4, h5, h6]

/-- C1 (witness): a concrete invocation with both run and toolbox flags
set dispatches exactly the run-tool call. -/
theorem c1_witness :
    dispatchOps { initState with toolName := ("A".data), runTool := true, toolbox := true } =
      [Event.callRunTool
        (effName { initState with toolName := ("A".data), runTool := true, toolbox := true })
        ({ initState with toolName := ("A".data), runTool := true, toolbox := true }).toolArgsVec] :=
  (c1_amended [("whitebox_tools".data), ("-r=Slope".data), ("--toolbox=A".data)]
    { initState with toolName := ("A".data), runTool := true, toolbox := true }
    (by decide) (by decide)).2.2.2.1 rfl

/-- C3 (counterexample): with `--wd=/data//` the backend is constructed
with a working directory ending in two separators, so it does not end
with exactly one separator. -/
theorem c3_counterexample :
    run [("whitebox_tools".data), ("--wd=/data//".data)] =
      [Event.construct ("/data//".data) false] ∧
    endsWithL ("/data//".data) ("//".data) = true :=
  ⟨by decide, by decide⟩

/-- C3 (amended): in the non-zero-token path the working directory passed
to the backend always ends with the separator; the normalization appends
one exactly when the accumulated value (possibly empty) does not already
end with it, and passes a value already ending in separators through
unchanged, so a trailing run longer than one is possible. -/
theorem c3_amended (args : List Str) (s : RState)
    (hs : scan initState args = ScanOutcome.done s) (hlen : 1 < args.length) :
    run args = Event.construct (finalWd s) s.verbose :: dispatchOps s ∧
    endsWithL (finalWd s) sepF = true ∧
    (endsWithL s.workingDir sepF = true → finalWd s = s.workingDir) ∧
    (endsWithL s.workingDir sepF = false → finalWd s = s.workingDir ++ sepF) := by
  refine ⟨?_, ?_, ?_, ?_⟩
  · unfold run
    rw [if_neg (by omega), hs]
  · unfold finalWd
    split
    · assumption
    · exact endsWith_append_sep _
  · intro h
    simp only [sepF_eq] at h
    simp [finalWd, h]
  · intro h
    simp only [sepF_eq] at h
    simp [finalWd, h]

/-- C3 (witness): `--wd=data` yields working directory `data/` at
construction, ending in the separator. -/
theorem c3_witness :
    endsWithL (finalWd { initState with workingDir := ("data/".data) }) sepF = true :=
  (c3_amended [("whitebox_tools".data), ("--wd=data".data)]
    { initState with workingDir := ("data/".data) } (by decide) (by decide)).2.1

/-- C8 (counterexample): the token `--WD=x`, uppercase, is recognized as
the working-directory flag (the check runs on the case-folded collapsed
form), so not every non-help flag check is case-sensitive. -/
theorem c8_counterexample :
    processArg initState ("--WD=x".data) =
      StepResult.next { initState with workingDir := ("--WD=x/".data) } := by decide

/-- C8 (amended): the help check and the working-directory check both run
on the case-folded, `--`-collapsed form of the token (case-insensitive);
the remaining flag checks are case-sensitive, e.g. `--RUN=Slope` is
forwarded to the tool rather than recognized as the run flag. -/
theorem c8_amended :
    (∀ (s : RState) (t : Str), flagValOf t = hF ∨ flagValOf t = helpF →
      processArg s t = StepResult.showHelp) ∧
    (∀ (s : RState) (t : Str), ¬(flagValOf t = hF ∨ flagValOf t = helpF) →
      (startsWithL (flagValOf t) cdF = true ∨ startsWithL (flagValOf t) wdF = true) →
      processArg s t = StepResult.next (cdBranch s t)) ∧
    processArg initState ("--RUN=Slope".data) =
      StepResult.next { initState with toolArgsVec := [("--RUN=Slope".data)] } := by
  refine ⟨?_, ?_, by decide⟩
  · intro s t h
    unfold processArg
    rw [if_pos h]
  · intro s t h1 h2
    unfold processArg
    rw [if_neg h1, if_pos h2]

/-- C8 (witness): `--HeLp` case-folds and collapses to `-help`, so it
signals ShowHelp. -/
theorem c8_witness : processArg initState ("--HeLp".data) = StepResult.showHelp :=
  c8_amended.1 initState ("--HeLp".data) (by decide)

/-- C10: every token beginning with `-r` (case-sensitively) is classified
as the run flag, the stored tool name being the token with `--run`,
`-run` and `-r` deleted everywhere, quotes removed and a leading `=`
dropped; in particular `-resolution=5` sets the RunTool action with the
mangled name `esolution=5`, and `--run=my-raster` yields the mangled name
`myaster`. -/
theorem c10_run_flag :
    (∀ (s : RState) (t : Str), startsWithL t runC = true →
      processArg s t =
        StepResult.next { s with toolName := extractValue runAliases t, runTool := true }) ∧
    processArg initState ("-resolution=5".data) =
      StepResult.next { initState with toolName := ("esolution=5".data), runTool := true } ∧
    extractValue runAliases ("--run=my-raster".data) = ("myaster".data) := by
  refine ⟨?_, by decide, by decide⟩
  intro s t h
  rcases startsWithL_iff.mp h with ⟨r, rfl⟩
  simp only [runC_eq, List.cons_append, List.nil_append]
  obtain ⟨y, hy⟩ := flagVal_cons 'r' rfl (by decide) r
  unfold processArg
  rw [hy]
  simp +decide [startsWithL]

/-- C10 (witness): `-rX` is classified as the run flag with the extracted
name. -/
theorem c10_witness :
    processArg initState ("-rX".data) =
      StepResult.next
        { initState with toolName := extractValue runAliases ("-rX".data), runTool := true } :=
  c10_run_flag.1 initState ("-rX".data) (by decide)

/-- C7 (counterexample): `whitebox_tools -V` prints nothing and makes no
backend operation call — the trace is backend construction only — while
`--version` does print the version text readers expect of `-V`. -/
theorem c7_counterexample :
    run [("whitebox_tools".data), ("-V".data)] = [Event.construct ("/".data) false] ∧
    run [("whitebox_tools".data), ("--version".data)] = [Event.printVersion] :=
  ⟨by decide, by decide⟩

/-- C7 (amended): only tokens starting with `-version` or `--version`
signal ShowVersion; `-V` is not recognized and is appended to the
forwarded tool arguments instead. -/
theorem c7_amended :
    (∀ (s : RState) (t : Str),
      startsWithL t verA = true ∨ startsWithL t verB = true →
      processArg s t = StepResult.showVersion) ∧
    processArg initState ("-V".data) =
      StepResult.next { initState with toolArgsVec := [("-V".data)] } := by
  refine ⟨?_, by decide⟩
  intro s t h
  rcases h with h | h
  · rcases startsWithL_iff.mp h with ⟨r, rfl⟩
    simp only [verA_eq, List.cons_append, List.nil_append]
    obtain ⟨y, hy⟩ := flagVal_cons 'v' rfl (by decide) ('e' :: 'r' :: 's' :: 'i' :: 'o' :: 'n' :: r)
    unfold processArg
    rw [hy]
    simp +decide [startsWithL]
  · rcases startsWithL_iff.mp h with ⟨r, rfl⟩
    simp only [verB_eq, List.cons_append, List.nil_append]
    obtain ⟨y, hy⟩ := flagVal_ddcons 'v' rfl (by decide) ('e' :: 'r' :: 's' :: 'i' :: 'o' :: 'n' :: r)
    unfold processArg
    rw [hy]
    simp +decide [startsWithL]

/-- C7 (witness): `--version` signals ShowVersion. -/
theorem c7_witness : processArg initState ("--version".data) = StepResult.showVersion :=
  c7_amended.1 initState ("--version".data) (by decide)

/-- C5 (counterexample): `-lfoo` is none of the five exact license
aliases, yet the whole invocation short-circuits to printing the license
text. -/
theorem c5_counterexample :
    run [("whitebox_tools".data), ("-lfoo".data)] = [Event.printLicense] ∧
    ¬ (("-lfoo".data) ∈ [lF, licA, licB, licC, licD]) :=
  ⟨by decide, by decide⟩

/-- C5 (amended): a token signals ShowLicense exactly when it starts with
`-l` without starting with `-listtools` or `-list_tools`, or starts with
`--license` or `--licence` — a starts-with check, not an exact-alias match. -/
theorem c5_amended (s : RState) (t : Str) :
    processArg s t = StepResult.showLicense ↔
      ((startsWithL t lF = true ∧ startsWithL t ltA = false ∧ startsWithL t ltC = false) ∨
        startsWithL t licC = true ∨ startsWithL t licD = true) := by
  constructor
  · intro h
    unfold processArg at h
    by_cases c1 : flagValOf t = hF ∨ flagValOf t = helpF
    · rw [if_pos c1] at h; cases h
    rw [if_neg c1] at h
    by_cases c2 : startsWithL (flagValOf t) cdF = true ∨ startsWithL (flagValOf t) wdF = true
    · rw [if_pos c2] at h; cases h
    rw [if_neg c2] at h
    by_cases c3 : startsWithL t runB = true ∨ startsWithL t runA = true ∨
        startsWithL t runC = true
    · rw [if_pos c3] at h; cases h
    rw [if_neg c3] at h
    by_cases c4 : startsWithL t thB = true ∨ startsWithL t thA = true
    · rw [if_pos c4] at h; cases h
    rw [if_neg c4] at h
    by_cases c5 : startsWithL t tpB = true ∨ startsWithL t tpA = true
    · rw [if_pos c5] at h; cases h
    rw [if_neg c5] at h
    by_cases c6 : startsWithL t tbB = true ∨ startsWithL t tbA = true
    · rw [if_pos c6] at h; cases h
    rw [if_neg c6] at h
    by_cases c7 : startsWithL t ltA = true ∨ startsWithL t ltB = true ∨
        startsWithL t ltC = true ∨ startsWithL t ltD = true
    · rw [if_pos c7] at h; cases h
    rw [if_neg c7] at h
    by_cases c9 : startsWithL t vcB = true ∨ startsWithL t vcA = true
    · rw [if_pos c9] at h; cases h
    rw [if_neg c9] at h
    by_cases c10 : startsWithL t licA = true ∨ startsWithL t licB = true ∨
        startsWithL t licC = true ∨ startsWithL t licD = true ∨ startsWithL t lF = true
    · simp only [not_or, Bool.not_eq_true] at c7
      obtain ⟨n1, n2, n3, n4⟩ := c7
      rcases c10 with hx | hx | hx | hx | hx
      · refine Or.inl ⟨?_, n1, n3⟩
        simp only [licA_eq] at hx
        simpa using startsWith_mono (p := ['-', 'l']) (q := ['i', 'c', 'e', 'n', 's', 'e'])
          (by simpa using hx)
      · refine Or.inl ⟨?_, n1, n3⟩
        simp only [licB_eq] at hx
        simpa using startsWith_mono (p := ['-', 'l']) (q := ['i', 'c', 'e', 'n', 'c', 'e'])
          (by simpa using hx)
      · exact Or.inr (Or.inl hx)
      · exact Or.inr (Or.inr hx)
      · exact Or.inl ⟨hx, n1, n3⟩
    rw [if_neg c10] at h
    by_cases c11 : startsWithL t verA = true ∨ startsWithL t verB = true
    · rw [if_pos c11] at h; cases h
    rw [if_neg c11] at h
    by_cases c12 : trimL t = vF
    · rw [if_pos c12] at h; cases h
    rw [if_neg c12] at h
    by_cases c13 : startsWithL t dashF = true
    · rw [if_pos c13] at h
      by_cases c14 : containsL t sentinel = true
      · rw [if_pos c14] at h; cases h
      · rw [if_neg c14] at h; cases h
    rw [if_neg c13] at h
    by_cases c15 : containsL t wbt = true
    · rw [if_pos c15] at h; cases h
    rw [if_neg c15] at h
    by_cases c16 : s.findingWorkingDir = true
    · rw [if_pos c16] at h; cases h
    rw [if_neg c16] at h
    by_cases c17 : 0 < s.toolArgsVec.length
    · rw [if_pos c17] at h; cases h
    rw [if_neg c17] at h; cases h
  · intro h
    rcases h with ⟨hl, hn1, hn2⟩ | hc | hd
    · simp only [lF_eq] at hl
      rcases startsWithL_iff.mp hl with ⟨r, rfl⟩
      simp only [List.cons_append, List.nil_append] at hn1 hn2 ⊢
      simp +decide [startsWithL] at hn1 hn2
      obtain ⟨y, hy⟩ := flagVal_cons 'l' rfl (by decide) r
      unfold processArg
      rw [hy]
      simp +decide [startsWithL, hn1, hn2]
    · simp only [licC_eq] at hc
      rcases startsWithL_iff.mp hc with ⟨r, rfl⟩
      simp only [List.cons_append, List.nil_append]
      obtain ⟨y, hy⟩ :=
        flagVal_ddcons 'l' rfl (by decide) ('i' :: 'c' :: 'e' :: 'n' :: 's' :: 'e' :: r)
      unfold processArg
      rw [hy]
      simp +decide [startsWithL]
    · simp only [licD_eq] at hd
      rcases startsWithL_iff.mp hd with ⟨r, rfl⟩
      simp only [List.cons_append, List.nil_append]
      obtain ⟨y, hy⟩ :=
        flagVal_ddcons 'l' rfl (by decide) ('i' :: 'c' :: 'e' :: 'n' :: 'c' :: 'e' :: r)
      unfold processArg
      rw [hy]
      simp +decide [startsWithL]

/-- C5 (witness): `-lfoo` satisfies the amended condition and signals
ShowLicense. -/
theorem c5_witness : processArg initState ("-lfoo".data) = StepResult.showLicense :=
  (c5_amended initState ("-lfoo".data)).mpr (by decide)

/-- C6 (counterexample): after `--wd` with no inline value, the bare
quoted token is recorded as a keyword (quotes stripped) and stored as the
working-directory value with its quote characters retained — against the
claim it is consumed instead of keyword recording with quotes stripped. -/
theorem c6_counterexample :
    scan initState
        [("whitebox_tools".data), ("--wd".data),
          ([Char.ofNat 39] ++ ("data".data) ++ [Char.ofNat 39])] =
      ScanOutcome.done
        { initState with
            workingDir := [Char.ofNat 39] ++ ("data".data) ++ [Char.ofNat 39],
            keywords := [("data".data)] } ∧
    containsL ([Char.ofNat 39] ++ ("data".data) ++ [Char.ofNat 39]) sqF = true :=
  ⟨by decide, by decide⟩

/-- C6 (amended): when `finding_working_dir` is set, a bare token that
reaches the keyword branch is first appended to the keywords (trimmed,
quotes stripped) and is then also consumed as the working-directory value
— stored trimmed but with quote characters retained — clearing the flag. -/
theorem c6_amended (s : RState) (t : Str)
    (h1 : ¬(flagValOf t = hF ∨ flagValOf t = helpF))
    (h2 : startsWithL (flagValOf t) cdF = false)
    (h3 : startsWithL (flagValOf t) wdF = false)
    (h4 : startsWithL t dashF = false)
    (h5 : trimL t ≠ vF)
    (h6 : containsL t wbt = false)
    (h7 : s.findingWorkingDir = true) :
    processArg s t = StepResult.next
      { s with keywords := s.keywords ++ [stripQuotes (trimL t)],
               workingDir := trimL t, findingWorkingDir := false } := by
  have nd : ∀ p : Str, startsWithL t ('-' :: p) = false := fun p =>
    startsWith_false_cons (by simpa using h4) p
  simp only [hF_eq, helpF_eq] at h1
  simp only [cdF_eq] at h2
  simp only [wdF_eq] at h3
  simp only [vF_eq] at h5
  unfold processArg
  simp +decide [nd, h1, h2, h3, h5, h6, h7]

/-- C6 (witness): a quoted bare token after `--wd` is both recorded as a
keyword and stored, quotes intact, as the working directory. -/
theorem c6_witness :
    processArg { initState with findingWorkingDir := true }
        ([Char.ofNat 39] ++ ("data".data) ++ [Char.ofNat 39]) =
      StepResult.next
        { { initState with findingWorkingDir := true } with
            keywords :=
              ({ initState with findingWorkingDir := true } : RState).keywords ++
                [stripQuotes (trimL ([Char.ofNat 39] ++ ("data".data) ++ [Char.ofNat 39]))],
            workingDir := trimL ([Char.ofNat 39] ++ ("data".data) ++ [Char.ofNat 39]),
            findingWorkingDir := false } :=
  c6_amended { initState with findingWorkingDir := true }
    ([Char.ofNat 39] ++ ("data".data) ++ [Char.ofNat 39])
    (by decide) (by decide) (by decide) (by decide) (by decide) (by decide) (by decide)

/-- C4 (counterexample): a bare token containing the sentinel substring,
arriving after forwarding has started, is appended to the forwarded
arguments unchecked (and even becomes the fallback tool name). -/
theorem c4_counterexample :
    run [("whitebox_tools".data), ("-r".data), ("--data.tif".data),
        ("x-17976931348623157".data)] =
      [Event.construct ("/".data) false,
        Event.callRunTool ("x-17976931348623157".data)
          [("--data.tif".data), ("x-17976931348623157".data)]] ∧
    containsL ("x-17976931348623157".data) sentinel = true :=
  ⟨by decide, by decide⟩

set_option maxHeartbeats 2000000 in
/-- C4 (amended): sentinel filtering holds on the dash-led route —
a token starting with `-` that contains the sentinel never changes the
forwarded arguments, and in the spec example only `--data.tif` is
forwarded — but not on the bare-token route. -/
theorem c4_amended :
    run [("whitebox_tools".data), ("-r".data), ("--data.tif".data),
        ("-17976931348623157".data)] =
      [Event.construct ("/".data) false, Event.callRunTool [] [("--data.tif".data)]] ∧
    (∀ (s : RState) (t : Str) (a : RState),
      startsWithL t dashF = true → containsL t sentinel = true →
      processArg s t = StepResult.next a → a.toolArgsVec = s.toolArgsVec) := by
  refine ⟨by decide, ?_⟩
  intro s t a hd hsen hp
  unfold processArg at hp
  by_cases c1 : flagValOf t = hF ∨ flagValOf t = helpF
  · rw [if_pos c1] at hp; cases hp
  rw [if_neg c1] at hp
  by_cases c2 : startsWithL (flagValOf t) cdF = true ∨ startsWithL (flagValOf t) wdF = true
  · rw [if_pos c2] at hp
    injection hp with hp
    subst hp
    rfl
  rw [if_neg c2] at hp
  by_cases c3 : startsWithL t runB = true ∨ startsWithL t runA = true ∨
      startsWithL t runC = true
  · rw [if_pos c3] at hp
    injection hp with hp
    subst hp
    rfl
  rw [if_neg c3] at hp
  by_cases c4 : startsWithL t thB = true ∨ startsWithL t thA = true
  · rw [if_pos c4] at hp
    injection hp with hp
    subst hp
    rfl
  rw [if_neg c4] at hp
  by_cases c5 : startsWithL t tpB = true ∨ startsWithL t tpA = true
  · rw [if_pos c5] at hp
    injection hp with hp
    subst hp
    rfl
  rw [if_neg c5] at hp
  by_cases c6 : startsWithL t tbB = true ∨ startsWithL t tbA = true
  · rw [if_pos c6] at hp
    injection hp with hp
    subst hp
    rfl
  rw [if_neg c6] at hp
  by_cases c7 : startsWithL t ltA = true ∨ startsWithL t ltB = true ∨
      startsWithL t ltC = true ∨ startsWithL t ltD = true
  · rw [if_pos c7] at hp
    injection hp with hp
    subst hp
    rfl
  rw [if_neg c7] at hp
  by_cases c8 : startsWithL t vcB = true ∨ startsWithL t vcA = true
  · rw [if_pos c8] at hp
    injection hp with hp
    subst hp
    rfl
  rw [if_neg c8] at hp
  by_cases c9 : startsWithL t licA = true ∨ startsWithL t licB = true ∨
      startsWithL t licC = true ∨ startsWithL t licD = true ∨ startsWithL t lF = true
  · rw [if_pos c9] at hp; cases hp
  rw [if_neg c9] at hp
  by_cases c10 : startsWithL t verA = true ∨ startsWithL t verB = true
  · rw [if_pos c10] at hp; cases hp
  rw [if_neg c10] at hp
  by_cases c11 : trimL t = vF
  · rw [if_pos c11] at hp
    injection hp with hp
    subst hp
    rfl
  rw [if_neg c11] at hp
  by_cases c12 : startsWithL t dashF = true
  · rw [if_pos c12, if_pos hsen] at hp
    injection hp with hp
    subst hp
    rfl
  · exact absurd hd c12

/-- C4 (witness): the sentinel token leaves already-started forwarded
arguments unchanged. -/
theorem c4_witness :
    ({ initState with toolArgsVec := [("--data.tif".data)] } : RState).toolArgsVec =
      ({ initState with toolArgsVec := [("--data.tif".data)] } : RState).toolArgsVec :=
  c4_amended.2 { initState with toolArgsVec := [("--data.tif".data)] }
    ("-17976931348623157".data) { initState with toolArgsVec := [("--data.tif".data)] }
    (by decide) (by decide) (by decide)

end WB
